import Mathlib

/-!
Verification of the balanced-grid OMR pipeline (services/Process) and the
grader (services/Grade/create_ans.py) against its natural-language
specification.

The Python code is shallowly embedded: every pure computation on the
extracted per-cell statistics is reproduced as a computable Lean function
over exact rationals.  Image decoding, OpenCV preprocessing and the pixel
slicing that produce the per-cell feature records are outside the
embedding; the embedded functions take those records as inputs, exactly as
the corresponding Python functions do.

Numeric fidelity notes:
* Python floats are modelled by exact rationals.  All thresholds and
  weights in the sources are short decimal literals, and all comparisons
  performed are order comparisons on quantities derived from them, so the
  rational model agrees with the float semantics on every input exercised
  by the theorems below.  For the grid construction the expressions
  `int(height * 0.09)`, `int(width * 0.15)`, `int(i * (remaining / 10))`,
  `int(k * (remaining / 4))` and `int((i - 4) * 1.5)` were checked to
  coincide with the rational floors `9*h/100`, `15*w/100`, `i*r/10`,
  `k*r/4` and `3*(i-4)/2` for every operand size that can arise from a
  scanned sheet (all sizes up to several thousands of pixels).
* Python `%` on integers is `Int.emod` (result has the sign of the
  modulus), `int()` on a non-negative float is the floor, `sorted` /
  `list.sort` are stable; the stable insertion sorts below reproduce that.
* `numpy.percentile` uses linear interpolation between order statistics;
  `npPercentile` below implements exactly that rule over rationals.
-/

namespace BE

/-! ### Stable sorting (Python `sorted` / `list.sort` semantics) -/

/-- Insert an element into a list sorted ascending by a key, placing it
before the first element whose key is not smaller: this reproduces the
stability of Python sorts (earlier elements keep priority among equal
keys). -/
def insAsc {α β : Type} [LinearOrder β] (key : α → β) (x : α) : List α → List α
  | [] => [x]
  | y :: ys => if key y < key x then y :: insAsc key x ys else x :: y :: ys

/-- Stable ascending insertion sort by a key (Python `sorted(l, key=k)`). -/
def sortAsc {α β : Type} [LinearOrder β] (key : α → β) : List α → List α
  | [] => []
  | x :: xs => insAsc key x (sortAsc key xs)

/-- Insert for the stable descending sort. -/
def insDesc {α β : Type} [LinearOrder β] (key : α → β) (x : α) : List α → List α
  | [] => [x]
  | y :: ys => if key x < key y then y :: insDesc key x ys else x :: y :: ys

/-- Stable descending insertion sort by a key
(Python `sorted(l, key=k, reverse=True)` / `l.sort(key=k, reverse=True)`). -/
def sortDesc {α β : Type} [LinearOrder β] (key : α → β) : List α → List α
  | [] => []
  | x :: xs => insDesc key x (sortDesc key xs)

theorem mem_insAsc {α β : Type} [LinearOrder β] (key : α → β) (x : α)
    (l : List α) (a : α) : a ∈ insAsc key x l ↔ a = x ∨ a ∈ l := by
  induction l with
  | nil => simp [insAsc]
  | cons y ys ih =>
      simp only [insAsc]
      by_cases h : key y < key x
      · simp [h, ih]
        tauto
      · simp [h]

theorem mem_sortAsc {α β : Type} [LinearOrder β] (key : α → β)
    (l : List α) (a : α) : a ∈ sortAsc key l ↔ a ∈ l := by
  induction l with
  | nil => simp [sortAsc]
  | cons x xs ih => simp [sortAsc, mem_insAsc, ih]

theorem pairwise_insAsc {α β : Type} [LinearOrder β] (key : α → β) (x : α)
    (l : List α) (h : l.Pairwise (fun a b => key a ≤ key b)) :
    (insAsc key x l).Pairwise (fun a b => key a ≤ key b) := by
  induction l with
  | nil => simp [insAsc]
  | cons y ys ih =>
      rw [List.pairwise_cons] at h
      simp only [insAsc]
      by_cases hlt : key y < key x
      · rw [if_pos hlt, List.pairwise_cons]
        refine ⟨?_, ih h.2⟩
        intro a ha
        rcases (mem_insAsc key x ys a).1 ha with rfl | hmem
        · exact le_of_lt hlt
        · exact h.1 a hmem
      · rw [if_neg hlt, List.pairwise_cons]
        refine ⟨?_, List.Pairwise.cons h.1 h.2⟩
        intro a ha
        rcases List.mem_cons.1 ha with rfl | hmem
        · exact le_of_not_lt hlt
        · exact le_trans (le_of_not_lt hlt) (h.1 a hmem)

theorem pairwise_sortAsc {α β : Type} [LinearOrder β] (key : α → β)
    (l : List α) : (sortAsc key l).Pairwise (fun a b => key a ≤ key b) := by
  induction l with
  | nil => simp [sortAsc]
  | cons x xs ih => exact pairwise_insAsc key x _ ih

theorem mem_insDesc {α β : Type} [LinearOrder β] (key : α → β) (x : α)
    (l : List α) (a : α) : a ∈ insDesc key x l ↔ a = x ∨ a ∈ l := by
  induction l with
  | nil => simp [insDesc]
  | cons y ys ih =>
      simp only [insDesc]
      by_cases h : key x < key y
      · simp [h, ih]
        tauto
      · simp [h]

theorem mem_sortDesc {α β : Type} [LinearOrder β] (key : α → β)
    (l : List α) (a : α) : a ∈ sortDesc key l ↔ a ∈ l := by
  induction l with
  | nil => simp [sortDesc]
  | cons x xs ih => simp [sortDesc, mem_insDesc, ih]

theorem pairwise_insDesc {α β : Type} [LinearOrder β] (key : α → β) (x : α)
    (l : List α) (h : l.Pairwise (fun a b => key b ≤ key a)) :
    (insDesc key x l).Pairwise (fun a b => key b ≤ key a) := by
  induction l with
  | nil => simp [insDesc]
  | cons y ys ih =>
      rw [List.pairwise_cons] at h
      simp only [insDesc]
      by_cases hlt : key x < key y
      · rw [if_pos hlt, List.pairwise_cons]
        refine ⟨?_, ih h.2⟩
        intro a ha
        rcases (mem_insDesc key x ys a).1 ha with rfl | hmem
        · exact le_of_lt hlt
        · exact h.1 a hmem
      · rw [if_neg hlt, List.pairwise_cons]
        refine ⟨?_, List.Pairwise.cons h.1 h.2⟩
        intro a ha
        rcases List.mem_cons.1 ha with rfl | hmem
        · exact le_of_not_lt hlt
        · exact le_trans (h.1 a hmem) (le_of_not_lt hlt)

theorem pairwise_sortDesc {α β : Type} [LinearOrder β] (key : α → β)
    (l : List α) : (sortDesc key l).Pairwise (fun a b => key b ≤ key a) := by
  induction l with
  | nil => simp [sortDesc]
  | cons x xs ih => exact pairwise_insDesc key x _ ih

/-! ### numpy percentile and Python integer helpers -/

/-- `numpy.percentile(xs, q)` with the default linear interpolation:
with the data sorted ascending and `pos = q * (n - 1) / 100`, the result
interpolates between the order statistics at `floor pos` and
`floor pos + 1`.  (`numpy` raises on empty input; the sources never call
it with an empty list — the embedding returns 0 there.) -/
def npPercentile (xs : List ℚ) (q : ℚ) : ℚ :=
  let s := sortAsc id xs
  match s with
  | [] => 0
  | _ :: _ =>
    let n := s.length
    let pos : ℚ := q * (n - 1) / 100
    let i : ℕ := (⌊pos⌋).toNat
    let frac : ℚ := pos - i
    let lo := s.getD i 0
    let hi := s.getD (i + 1) lo
    lo + frac * (hi - lo)

/-- Python `%` for an integer left operand and positive modulus. -/
def pyMod (a b : ℤ) : ℤ := a % b

/-- Python `round(x, 2)` (round half to even), modelled over exact
rationals: scale by 100, round half to even, scale back. -/
def roundHalfEven (x : ℚ) : ℤ :=
  if x - (⌊x⌋ : ℚ) < 1/2 then ⌊x⌋
  else if 1/2 < x - (⌊x⌋ : ℚ) then ⌊x⌋ + 1
  else if ⌊x⌋ % 2 = 0 then ⌊x⌋ else ⌊x⌋ + 1

def pyRound2 (x : ℚ) : ℚ := (roundHalfEven (x * 100) : ℚ) / 100

/-! ### Part I: services/Process/balanced_grid_omr.py

Per-cell statistics record.  `extract_cells` computes more fields than the
decision engine reads; the embedding keeps exactly the fields consumed by
`detect_answers` (`row`, `col`, `mean`, `p25`, `darkness_ratio`,
`very_dark_ratio`, `min`), named `row`, `col`, `mean`, `p25`, `darkness`,
`veryDark`, `cmin`. -/

structure Cell1 where
  row : ℕ
  col : ℕ
  mean : ℚ
  p25 : ℚ
  darkness : ℚ
  veryDark : ℚ
  cmin : ℚ
deriving DecidableEq, Repr

/-- A Part I answer record.  `detect_answers` emits dicts with keys
`question`, `answer`, `raw_column_index`, `confidence`, `scores`;
`apply_column_mapping` emits dicts with `question`, `answer`,
`confidence`, `scores`, `original_detected`, `column_corrected` (and
without `raw_column_index`).  One structure with optional fields models
both shapes: a missing key is `none` / `false`. -/
structure P1Answer where
  question : ℕ
  answer : Char
  rawColumnIndex : Option ℕ
  confidence : ℚ
  scores : List ℚ
  originalDetected : Option Char
  columnCorrected : Bool
deriving DecidableEq, Repr

/-- The multi-criteria score of one cell, given the adaptive thresholds
computed from all cells of the tile (`detect_answers`, criteria 1-5). -/
def cellScore (meanTh meanTh2 p25Th p25Th2 darkTh darkTh2 vdTh vdTh2 : ℚ)
    (c : Cell1) : ℚ :=
  (if c.mean < meanTh then 4 else if c.mean < meanTh2 then 2 else 0)
  + (if c.p25 < p25Th then 3 else if c.p25 < p25Th2 then 3/2 else 0)
  + (if darkTh < c.darkness then 5/2 else if darkTh2 < c.darkness then 1 else 0)
  + (if vdTh < c.veryDark then 2 else if vdTh2 < c.veryDark then 1/2 else 0)
  + (if c.cmin < 40 then 3/2 else if c.cmin < 70 then 1/2 else 0)

/-- `BalancedGridOMR.detect_answers`: group the cells by row, compute the
adaptive percentile thresholds over all cells, score each row of four
cells, and emit an answer for a row iff its best score reaches the
confidence threshold 3.0.  Rows without exactly four cells are skipped;
ties are broken by the first (smallest-column) maximal score. -/
def detectAnswers (cells : List Cell1) : List P1Answer :=
  match cells with
  | [] => []
  | _ :: _ =>
    let allMeans := cells.map (·.mean)
    let allP25 := cells.map (·.p25)
    let allDark := cells.map (·.darkness)
    let allVd := cells.map (·.veryDark)
    let meanTh := npPercentile allMeans 25
    let meanTh2 := npPercentile allMeans 35
    let p25Th := npPercentile allP25 20
    let p25Th2 := npPercentile allP25 30
    let darkTh := npPercentile allDark 75
    let darkTh2 := npPercentile allDark 60
    let vdTh := npPercentile allVd 70
    let vdTh2 := npPercentile allVd 50
    let rowKeys := sortAsc id ((cells.map (·.row)).dedup)
    rowKeys.filterMap (fun rowNum =>
      let rowCells := cells.filter (fun c => c.row = rowNum)
      if rowCells.length = 4 then
        let sorted := sortAsc (·.col) rowCells
        let scores := sorted.map
          (cellScore meanTh meanTh2 p25Th p25Th2 darkTh darkTh2 vdTh vdTh2)
        -- Each criterion contributes a non-negative weight, so every score
        -- is non-negative and folding `max` from 0 agrees with Python
        -- `max(scores)`; on the emission path (max at least 3) the first
        -- index attaining the maximum is `scores.index(max(scores))`.
        let maxScore := scores.foldr max 0
        if 3 ≤ maxScore then
          some { question := rowNum + 1
                 answer := Char.ofNat (65 + scores.indexOf maxScore)
                 rawColumnIndex := some (scores.indexOf maxScore)
                 confidence := maxScore
                 scores := scores
                 originalDetected := none
                 columnCorrected := false }
        else none
      else none)

/-- `BalancedGridOMR.apply_column_mapping`: regions 0 and 1 are returned
unchanged; every other region index rewrites each answer, re-lettering it
from `(raw_column_index - 2) % 4` and retaining the raw letter under
`original_detected`. -/
def applyColumnMapping (answers : List P1Answer) (regionIdx : ℕ) : List P1Answer :=
  if regionIdx = 0 ∨ regionIdx = 1 then answers
  else
    answers.map (fun a =>
      let rawCol : ℤ := ((a.rawColumnIndex.getD 0 : ℕ) : ℤ)
      let correctedCol := pyMod (rawCol - 2) 4
      { question := a.question
        answer := Char.ofNat (65 + correctedCol.toNat)
        rawColumnIndex := none
        confidence := a.confidence
        scores := a.scores
        originalDetected := some a.answer
        columnCorrected := true })

/-- `BalancedGridOMR.process_region`, after rotation, grid construction and
cell extraction have produced the cell records: detection followed by the
column mapping for the region index. -/
def processRegion (cells : List Cell1) (regionIdx : ℕ) : List P1Answer :=
  applyColumnMapping (detectAnswers cells) regionIdx

/-- The region loop of `BalancedGridOMR.process_part1`: region `i` gets
question offset `10 * i` and results are concatenated. -/
def part1Aux : List (List Cell1) → ℕ → List P1Answer
  | [], _ => []
  | cs :: rest, i =>
      ((processRegion cs i).map (fun a => { a with question := a.question + 10 * i }))
        ++ part1Aux rest (i + 1)

/-- `BalancedGridOMR.process_part1` on the per-region cell records of the
(at most four) detected regions: offset questions by 10 per region, then
sort ascending by question number.  Undetected questions produce no
entry. -/
def processPart1 (regions : List (List Cell1)) : List P1Answer :=
  sortAsc (·.question) (part1Aux (regions.take 4) 0)

/-- C3: for region indices 0..3 the column remap is applied iff the index
is 2 or 3; when applied it re-letters from `(raw - 2) % 4` keeping the raw
letter in `original_detected`, indices 0 and 1 return the answers
unchanged, and the remap composed with `(i + 2) % 4` is the identity on
0..3. -/
theorem apply_column_mapping_spec (answers : List P1Answer) (r : ℕ)
    (hr : r < 4) :
    (r = 0 ∨ r = 1 → applyColumnMapping answers r = answers) ∧
    (r = 2 ∨ r = 3 → applyColumnMapping answers r = answers.map (fun a =>
      { question := a.question
        answer := Char.ofNat (65 + (pyMod (((a.rawColumnIndex.getD 0 : ℕ) : ℤ) - 2) 4).toNat)
        rawColumnIndex := none
        confidence := a.confidence
        scores := a.scores
        originalDetected := some a.answer
        columnCorrected := true })) ∧
    (∀ i : ℤ, 0 ≤ i → i < 4 → pyMod (pyMod (i - 2) 4 + 2) 4 = i) := by
  refine ⟨?_, ?_, ?_⟩
  · intro h
    simp [applyColumnMapping, h]
  · intro h
    have hne : ¬(r = 0 ∨ r = 1) := by omega
    simp [applyColumnMapping, hne]
  · intro i h0 h4
    interval_cases i <;> decide

theorem detectAnswers_question (cells : List Cell1) (a : P1Answer)
    (ha : a ∈ detectAnswers cells) :
    ∃ r ∈ cells.map (·.row), a.question = r + 1 := by
  cases cells with
  | nil => simp [detectAnswers] at ha
  | cons c cs =>
      simp only [detectAnswers] at ha
      rw [List.mem_filterMap] at ha
      obtain ⟨rowNum, hmem, hf⟩ := ha
      refine ⟨rowNum, ?_, ?_⟩
      · have h1 := (mem_sortAsc id _ rowNum).1 hmem
        exact List.mem_dedup.1 h1
      · split_ifs at hf with h1 h2
        · cases hf
          rfl

theorem applyColumnMapping_question (l : List P1Answer) (r : ℕ)
    (a : P1Answer) (ha : a ∈ applyColumnMapping l r) :
    ∃ b ∈ l, a.question = b.question := by
  unfold applyColumnMapping at ha
  split_ifs at ha with h
  · exact ⟨a, ha, rfl⟩
  · rw [List.mem_map] at ha
    obtain ⟨b, hb, rfl⟩ := ha
    exact ⟨b, hb, rfl⟩

theorem part1Aux_bound (rs : List (List Cell1)) :
    ∀ i : ℕ, (∀ cs ∈ rs, ∀ c ∈ cs, c.row < 10) →
    ∀ a ∈ part1Aux rs i,
      10 * i + 1 ≤ a.question ∧ a.question ≤ 10 * i + 10 * rs.length := by
  induction rs with
  | nil => intro i _ a ha; simp [part1Aux] at ha
  | cons cs rest ih =>
      intro i h a ha
      simp only [part1Aux, List.mem_append] at ha
      rcases ha with ha | ha
      · rw [List.mem_map] at ha
        obtain ⟨b, hb, rfl⟩ := ha
        obtain ⟨d, hd, hq⟩ := applyColumnMapping_question _ _ _ hb
        obtain ⟨r, hr, hqd⟩ := detectAnswers_question _ _ hd
        rw [List.mem_map] at hr
        obtain ⟨cell, hcell, rfl⟩ := hr
        have hrow : cell.row < 10 := h cs (List.mem_cons_self _ _) cell hcell
        simp only [List.length_cons]
        omega
      · have hrest : ∀ cs2 ∈ rest, ∀ c ∈ cs2, c.row < 10 :=
          fun cs2 hcs2 c hc => h cs2 (List.mem_cons_of_mem _ hcs2) c hc
        have := ih (i + 1) hrest a ha
        simp only [List.length_cons]
        omega

/-- C1 (amended): for every family of per-region cell records in which
each cell has row index below 10 (as `extract_cells` guarantees, the grid
having ten answer rows), `process_part1` returns a list sorted in
ascending question order whose question numbers all lie in 1..40; but it
contains entries only for the questions actually detected with score at
least 3.0 in a processed region — undetected questions are omitted rather
than emitted as empty entries, so the result can have fewer than 40
entries. -/
theorem process_part1_sorted_bounded (regions : List (List Cell1))
    (h : ∀ cs ∈ regions, ∀ c ∈ cs, c.row < 10) :
    (processPart1 regions).Pairwise (fun a b => a.question ≤ b.question) ∧
    ∀ a ∈ processPart1 regions, 1 ≤ a.question ∧ a.question ≤ 40 := by
  constructor
  · exact pairwise_sortAsc _ _
  · intro a ha
    unfold processPart1 at ha
    rw [mem_sortAsc] at ha
    have htake : ∀ cs ∈ regions.take 4, ∀ c ∈ cs, c.row < 10 :=
      fun cs hcs => h cs (List.take_subset 4 regions hcs)
    have hlen : (regions.take 4).length ≤ 4 := by
      simpa using List.length_take_le 4 regions
    have := part1Aux_bound (regions.take 4) 0 htake a ha
    omega

/-- C1 (counterexample): on an image where region detection finds no
valid region — e.g. a blank page, for which the specification demands
forty empty entries — `process_part1` returns an empty answer list, not
40 entries with question numbers 1..40. -/
theorem process_part1_empty_counterexample :
    processPart1 [] = [] ∧ (processPart1 []).length ≠ 40 := by
  constructor <;> decide

/-- Witness for C1 (amended) at a concrete one-region input. -/
theorem process_part1_sorted_bounded_witness :
    (processPart1 [[
      { row := 0, col := 0, mean := 10, p25 := 5, darkness := 9/10,
        veryDark := 8/10, cmin := 5 },
      { row := 0, col := 1, mean := 200, p25 := 190, darkness := 1/100,
        veryDark := 0, cmin := 150 },
      { row := 0, col := 2, mean := 210, p25 := 195, darkness := 1/100,
        veryDark := 0, cmin := 160 },
      { row := 0, col := 3, mean := 220, p25 := 200, darkness := 1/100,
        veryDark := 0, cmin := 170 }]]).Pairwise
        (fun a b => a.question ≤ b.question) ∧
    ∀ a ∈ processPart1 [[
      { row := 0, col := 0, mean := 10, p25 := 5, darkness := 9/10,
        veryDark := 8/10, cmin := 5 },
      { row := 0, col := 1, mean := 200, p25 := 190, darkness := 1/100,
        veryDark := 0, cmin := 150 },
      { row := 0, col := 2, mean := 210, p25 := 195, darkness := 1/100,
        veryDark := 0, cmin := 160 },
      { row := 0, col := 3, mean := 220, p25 := 200, darkness := 1/100,
        veryDark := 0, cmin := 170 }]], 1 ≤ a.question ∧ a.question ≤ 40 :=
  process_part1_sorted_bounded _ (by decide)

/-- Witness for C3 at a concrete answer list and region index 2. -/
theorem apply_column_mapping_spec_witness :
    applyColumnMapping
      [{ question := 1, answer := 'C', rawColumnIndex := some 2,
         confidence := 7, scores := [0, 0, 7, 1],
         originalDetected := none, columnCorrected := false }] 2
      = [{ question := 1, answer := 'A', rawColumnIndex := none,
           confidence := 7, scores := [0, 0, 7, 1],
           originalDetected := some 'C', columnCorrected := true }] := by
  have h := apply_column_mapping_spec
    [{ question := 1, answer := 'C', rawColumnIndex := some 2,
       confidence := 7, scores := [0, 0, 7, 1],
       originalDetected := none, columnCorrected := false }] 2 (by decide)
  rw [h.2.1 (Or.inl rfl)]
  decide

/-! ### Part I region detection and grid (balanced_grid_omr.py) -/

/-- What `detect_regions` keeps of an OpenCV contour: its `contourArea`,
the vertex count of its 2%-of-perimeter polygon approximation, and its
bounding box. -/
structure Contour where
  area : ℚ
  approxLen : ℕ
  bboxX : ℚ
  bboxY : ℚ
  bboxW : ℚ
  bboxH : ℚ
deriving DecidableEq, Repr

/-- `BalancedGridOMR.detect_regions` on the extracted contours: drop
contours with area below 30000, keep those whose polygon approximation
has exactly 4 vertices, and sort the survivors by DESCENDING area
(`valid_regions.sort(key=lambda x: x['area'], reverse=True)`). -/
def detectRegions (contours : List Contour) : List Contour :=
  sortDesc (·.area)
    (contours.filter (fun c => !decide (c.area < 30000) && decide (c.approxLen = 4)))

/-- C7 (counterexample): two retained quadrilateral regions where the
lower one (bounding-box y = 500) has the larger contour area come back
ordered by area, so the output is NOT ordered top to bottom in the
source image. -/
theorem detect_regions_not_top_to_bottom :
    detectRegions
      [{ area := 50000, approxLen := 4, bboxX := 0, bboxY := 100,
         bboxW := 300, bboxH := 200 },
       { area := 60000, approxLen := 4, bboxX := 0, bboxY := 500,
         bboxW := 300, bboxH := 200 }]
      = [{ area := 60000, approxLen := 4, bboxX := 0, bboxY := 500,
           bboxW := 300, bboxH := 200 },
         { area := 50000, approxLen := 4, bboxX := 0, bboxY := 100,
           bboxW := 300, bboxH := 200 }] ∧
    ¬ (detectRegions
      [{ area := 50000, approxLen := 4, bboxX := 0, bboxY := 100,
         bboxW := 300, bboxH := 200 },
       { area := 60000, approxLen := 4, bboxX := 0, bboxY := 500,
         bboxW := 300, bboxH := 200 }]).Pairwise
        (fun a b => a.bboxY ≤ b.bboxY) := by
  constructor <;> decide

/-- C7 (amended): `detect_regions` returns the retained quadrilateral
candidates ordered by DESCENDING contour area (not top to bottom); every
returned region comes from the input, has contour area at least 30000 and
a four-vertex polygon approximation.  `process_part1` then assigns
question block `10 r + 1 .. 10 r + 10` to index `r` of this area-ordered
list (see `part1Aux`). -/
theorem detect_regions_area_ordered (contours : List Contour) :
    (detectRegions contours).Pairwise (fun a b => b.area ≤ a.area) ∧
    ∀ c ∈ detectRegions contours,
      30000 ≤ c.area ∧ c.approxLen = 4 ∧ c ∈ contours := by
  constructor
  · exact pairwise_sortDesc _ _
  · intro c hc
    unfold detectRegions at hc
    rw [mem_sortDesc, List.mem_filter] at hc
    obtain ⟨hmem, hcond⟩ := hc
    simp only [Bool.and_eq_true, Bool.not_eq_true', decide_eq_true_eq,
      decide_eq_false_iff_not, not_lt] at hcond
    exact ⟨hcond.1, hcond.2, hmem⟩

/-- `BalancedGridOMR.create_balanced_grid`.  The Python function computes
with floats; `int(height * 0.09)`, `int(i * (remaining_height / 10))`,
`int((i - 4) * 1.5)`, `int(width * 0.15)` and `int(k * (remaining / 4))`
coincide with the rational floors used below for every size a scanned
tile can have (checked exhaustively for all operands up to several
thousand).  The row loop `for i in range(1, 11)` is unrolled. -/
def createBalancedGrid (width height : ℕ) : List ℤ × List ℤ :=
  let headerHeight : ℕ := 9 * height / 100
  let rem : ℕ := height - headerHeight
  let corr : ℕ → ℕ := fun i => if i < 5 then 0 else 3 * (i - 4) / 2
  let hRow : ℕ → ℤ := fun i =>
    (headerHeight : ℤ) + ((i * rem / 10 : ℕ) : ℤ) - (corr i : ℤ)
  let hLines : List ℤ :=
    [0, (headerHeight : ℤ), hRow 1, hRow 2, hRow 3, hRow 4, hRow 5,
     hRow 6, hRow 7, hRow 8, hRow 9, hRow 10]
  let qColWidth : ℕ := 15 * width / 100
  let remW : ℕ := width - qColWidth
  let vLines : List ℤ :=
    [0, (qColWidth : ℤ),
     (qColWidth : ℤ) + ((1 * remW / 4 : ℕ) : ℤ),
     (qColWidth : ℤ) + ((2 * remW / 4 : ℕ) : ℤ),
     (qColWidth : ℤ) + ((3 * remW / 4 : ℕ) : ℤ),
     (width : ℤ)]
  (hLines, vLines)

/-- C8 (counterexample): at tile size 10 x 10 the header height is 0, so
`h_lines` begins `[0, 0, ...]` and is not strictly increasing; and even at
a realistic size 400 x 1000 the last horizontal line is `height - 9`, not
the tile height, because of the 1.5-pixel-per-row drift correction. -/
theorem create_balanced_grid_counterexample :
    ¬ ((createBalancedGrid 10 10).1.Pairwise (· < ·)) ∧
    (createBalancedGrid 400 1000).1.getLast? = some 991 ∧
    ((991 : ℤ) ≠ (1000 : ℤ)) := by
  refine ⟨?_, ?_, ?_⟩ <;> decide

/-- C8 (amended): for every tile of width at least 40 and height at least
100 (all real Part I tiles are far larger), both line lists are strictly
increasing and start at 0, `v_lines` ends at the tile width, but
`h_lines` ends at `height - 9` — nine pixels short of the tile height —
because rows 5..10 are shifted up by the drift correction. -/
theorem create_balanced_grid_amended (w h : ℕ) (hw : 40 ≤ w) (hh : 100 ≤ h) :
    (createBalancedGrid w h).1.Pairwise (· < ·) ∧
    (createBalancedGrid w h).1.head? = some 0 ∧
    (createBalancedGrid w h).1.getLast? = some ((h : ℤ) - 9) ∧
    (createBalancedGrid w h).2.Pairwise (· < ·) ∧
    (createBalancedGrid w h).2.head? = some 0 ∧
    (createBalancedGrid w h).2.getLast? = some (w : ℤ) := by
  have tr : ∀ l : List ℤ, List.Chain' (· < ·) l → l.Pairwise (· < ·) :=
    fun l hl => List.chain'_iff_pairwise.1 hl
  refine ⟨tr _ ?_, ?_, ?_, tr _ ?_, ?_, ?_⟩
  · simp [createBalancedGrid, List.chain'_cons]
    omega
  · rfl
  · simp [createBalancedGrid, List.getLast?_cons_cons]
    omega
  · simp [createBalancedGrid, List.chain'_cons]
    omega
  · rfl
  · simp [createBalancedGrid, List.getLast?_cons_cons]

/-- Witness for C8 (amended) at tile size 400 x 1000. -/
theorem create_balanced_grid_amended_witness :
    (createBalancedGrid 400 1000).1.Pairwise (· < ·) ∧
    (createBalancedGrid 400 1000).1.head? = some 0 ∧
    (createBalancedGrid 400 1000).1.getLast? = some ((1000 : ℤ) - 9) ∧
    (createBalancedGrid 400 1000).2.Pairwise (· < ·) ∧
    (createBalancedGrid 400 1000).2.head? = some 0 ∧
    (createBalancedGrid 400 1000).2.getLast? = some (400 : ℤ) :=
  create_balanced_grid_amended 400 1000 (by decide) (by decide)

/-! ### Exam-code reader: services/Process/ec.py

`process_exam_code` crops and rotates the code region, computes the mean
of each of the 10 x 4 cells on the Otsu-thresholded tile (column-major:
`for col in range(cols): for row in range(rows)`), sets the threshold to
the 10th percentile of the forty means, collects `(col + 1, row)` for
every cell whose mean is strictly below the threshold, sorts by column,
joins the row digits into a string — and RETURNS that string whatever its
length, printing only a warning when it is not 4 digits long.  The
embedding takes the column-major grid of cell means (outer list =
columns) and returns the string the function returns. -/

def examCodeString (grid : List (List ℚ)) : String :=
  let allMeans := grid.flatten
  let th := npPercentile allMeans 10
  let filled :=
    (grid.enum.map (fun ci =>
      ci.2.enum.filterMap (fun rm =>
        if rm.2 < th then some (ci.1 + 1, rm.1) else none))).flatten
  let sorted := sortAsc (·.1) filled
  -- Python builds the result with str(digit) per filled cell; the row
  -- indices are 0..9 on a 10-row grid, so each contributes one decimal
  -- digit character.
  String.mk (sorted.map (fun p => Char.ofNat (48 + p.2)))

/-- A 4 x 10 grid of cell means on which exactly three cells fall
strictly below the 10th-percentile threshold: column 1 row 0, column 2
row 1 and column 3 row 2 have mean 0, two further cells have mean 50
(making the interpolated 10th percentile equal to 50), and all other
cells have mean 200. -/
def examCodeBugGrid : List (List ℚ) :=
  [[0, 50, 200, 200, 200, 200, 200, 200, 200, 200],
   [200, 0, 200, 200, 200, 200, 200, 200, 200, 200],
   [200, 200, 0, 200, 200, 200, 200, 200, 200, 200],
   [50, 200, 200, 200, 200, 200, 200, 200, 200, 200]]

/-- C2: on `examCodeBugGrid` the reader finds three filled cells and
returns the three-character string "012" to its caller — neither the
empty string (the documented not-found result) nor a 4-digit code.  This
contradicts the function's own docstring, which promises a 4-digit code
or the empty string, and the specification's validation rule. -/
theorem exam_code_returns_three_digits :
    examCodeString examCodeBugGrid = "012" ∧
    (examCodeString examCodeBugGrid).length = 3 ∧
    examCodeString examCodeBugGrid ≠ "" := by
  have h : examCodeString examCodeBugGrid = "012" := by
    norm_num [examCodeString, examCodeBugGrid, npPercentile, sortAsc, insAsc,
      List.getD, Int.toNat]
  refine ⟨h, ?_, ?_⟩ <;> rw [h] <;> decide

/-! ### Part II: services/Process/balanced_grid_p2.py

`detect_p2_answers` reads the fields `question`, `option`, `is_true`,
`filled_ratio` and `mean` of each cell record; the embedding keeps
exactly those (`question`, `opt`, `isTrue`, `filled`, `mean`). -/

structure P2Cell where
  question : ℕ
  opt : Char
  isTrue : Bool
  filled : ℚ
  mean : ℚ
deriving DecidableEq, Repr

/-- The grouping loop of `detect_p2_answers` stores each cell into
`question_options[q][option][true_cell / false_cell]`; a later cell for
the same slot overwrites an earlier one, so the slot holds the LAST
matching cell. -/
def lastCell (cells : List P2Cell) (q : ℕ) (o : Char) (b : Bool) : Option P2Cell :=
  (cells.filter (fun c =>
    decide (c.question = q) && decide (c.opt = o) && (c.isTrue == b))).getLast?

/-- The per-option decision of `detect_p2_answers`: with both bubble
cells present, compare filled ratios when they differ by at least 0.05,
otherwise tie-break on the grayscale means; with either cell missing the
initial value `False` is kept. -/
def p2Answer (cells : List P2Cell) (q : ℕ) (o : Char) : Bool :=
  match lastCell cells q o true, lastCell cells q o false with
  | some t, some f =>
      if 1/20 ≤ |t.filled - f.filled| then decide (f.filled < t.filled)
      else decide (t.mean < f.mean)
  | _, _ => false

/-- `BalancedGridP2.detect_p2_answers`: one entry per distinct question
number, ascending; each entry carries the option dict, whose keys are
exactly a, b, c, d in insertion order (initialised all-`False`, then
assigned in a..d order). -/
def detectP2Answers (cells : List P2Cell) : List (ℕ × List (Char × Bool)) :=
  match cells with
  | [] => []
  | _ :: _ =>
    let qKeys := sortAsc id ((cells.map (·.question)).dedup)
    qKeys.map (fun q =>
      (q, [('a', p2Answer cells q ('a')),
           ('b', p2Answer cells q ('b')),
           ('c', p2Answer cells q ('c')),
           ('d', p2Answer cells q ('d'))]))

theorem lookup_map_self {α β : Type} [DecidableEq α] (ks : List α)
    (f : α → β) (q : α) (hq : q ∈ ks) :
    List.lookup q (ks.map (fun k => (k, f k))) = some (f q) := by
  induction ks with
  | nil => simp at hq
  | cons k ks ih =>
      rcases List.mem_cons.1 hq with rfl | hmem
      · simp [List.lookup]
      · by_cases hqk : q = k
        · subst hqk; simp [List.lookup]
        · have hbeq : (q == k) = false := beq_eq_false_iff_ne.mpr hqk
          simp only [List.map_cons, List.lookup, hbeq]
          exact ih hmem

theorem lastCell_mem (cells : List P2Cell) (q : ℕ) (o : Char) (b : Bool)
    (t : P2Cell) (ht : lastCell cells q o b = some t) :
    t ∈ cells ∧ t.question = q := by
  unfold lastCell at ht
  have hmem : t ∈ cells.filter (fun c =>
      decide (c.question = q) && decide (c.opt = o) && (c.isTrue == b)) := by
    obtain ⟨hne, heq⟩ := List.mem_getLast?_eq_getLast (Option.mem_def.mpr ht)
    rw [heq]
    exact List.getLast_mem hne
  rw [List.mem_filter] at hmem
  refine ⟨hmem.1, ?_⟩
  have := hmem.2
  simp only [Bool.and_eq_true, decide_eq_true_eq, beq_iff_eq] at this
  exact this.1.1

/-- C4: for every cell list and (question, option) pair whose True cell
and False cell were both extracted, the emitted value for that option is
the boolean decided by the paired comparison: the filled-ratio order when
the ratios differ by at least 0.05, otherwise the grayscale-mean order.
It is a boolean in all cases — never an empty marker. -/
theorem detect_p2_pair_decision (cells : List P2Cell) (q : ℕ) (o : Char)
    (t f : P2Cell)
    (ht : lastCell cells q o true = some t)
    (hf : lastCell cells q o false = some f)
    (ho : o = 'a' ∨ o = 'b' ∨ o = 'c' ∨ o = 'd') :
    ∃ l, List.lookup q (detectP2Answers cells) = some l ∧
      List.lookup o l = some
        (if 1/20 ≤ |t.filled - f.filled| then decide (f.filled < t.filled)
         else decide (t.mean < f.mean)) := by
  obtain ⟨htmem, htq⟩ := lastCell_mem cells q o true t ht
  have hne : cells ≠ [] := by
    intro h; rw [h] at htmem; simp at htmem
  obtain ⟨c, cs, rfl⟩ := List.exists_cons_of_ne_nil hne
  have hq : q ∈ sortAsc id (((c :: cs).map (·.question)).dedup) := by
    rw [mem_sortAsc, List.mem_dedup, List.mem_map]
    exact ⟨t, htmem, htq⟩
  refine ⟨[('a', p2Answer (c :: cs) q ('a')),
           ('b', p2Answer (c :: cs) q ('b')),
           ('c', p2Answer (c :: cs) q ('c')),
           ('d', p2Answer (c :: cs) q ('d'))], ?_, ?_⟩
  · show List.lookup q (detectP2Answers (c :: cs)) = _
    simp only [detectP2Answers]
    exact lookup_map_self _ _ q hq
  · have hval : p2Answer (c :: cs) q o =
        (if 1/20 ≤ |t.filled - f.filled| then decide (f.filled < t.filled)
         else decide (t.mean < f.mean)) := by
      rw [p2Answer, ht, hf]
    rcases ho with rfl | rfl | rfl | rfl <;>
      simp [List.lookup, hval]

/-- C10: every entry emitted by `detect_p2_answers` has an option map
whose keys are exactly a, b, c, d (all boolean-valued by construction),
and an option whose True-bubble or False-bubble cell was not extracted is
reported as `False` — the initial default — rather than missing or an
error. -/
theorem detect_p2_option_keys (cells : List P2Cell)
    (e : ℕ × List (Char × Bool)) (he : e ∈ detectP2Answers cells) :
    e.2.map Prod.fst =
      ['a', 'b', 'c', 'd'] ∧
    ∀ o ∈ ['a', 'b', 'c', 'd'],
      (lastCell cells e.1 o true = none ∨ lastCell cells e.1 o false = none) →
      List.lookup o e.2 = some false := by
  cases cells with
  | nil => simp [detectP2Answers] at he
  | cons c cs =>
      simp only [detectP2Answers] at he
      rw [List.mem_map] at he
      obtain ⟨q, hq, rfl⟩ := he
      constructor
      · rfl
      · intro o ho hmiss
        have hval : p2Answer (c :: cs) q o = false := by
          rcases hmiss with h | h
          · rw [p2Answer, h]
          · cases htc : lastCell (c :: cs) q o true <;> rw [p2Answer, htc, h]
        fin_cases ho <;> simp [List.lookup, hval]

/-- Witness for C4 at a concrete cell pair: question 1, option a, with
the Dung bubble clearly more filled than the Sai bubble. -/
theorem detect_p2_pair_decision_witness :
    ∃ l, List.lookup 1 (detectP2Answers
        [{ question := 1, opt := 'a', isTrue := true, filled := 1/2, mean := 100 },
         { question := 1, opt := 'a', isTrue := false, filled := 1/10, mean := 200 }])
        = some l ∧
      List.lookup 'a' l = some
        (if (1:ℚ)/20 ≤ |(1:ℚ)/2 - 1/10| then decide ((1:ℚ)/10 < 1/2)
         else decide ((100:ℚ) < 200)) :=
  detect_p2_pair_decision
    [{ question := 1, opt := 'a', isTrue := true, filled := 1/2, mean := 100 },
     { question := 1, opt := 'a', isTrue := false, filled := 1/10, mean := 200 }]
    1 'a'
    { question := 1, opt := 'a', isTrue := true, filled := 1/2, mean := 100 }
    { question := 1, opt := 'a', isTrue := false, filled := 1/10, mean := 200 }
    rfl rfl (Or.inl rfl)

/-- Witness for C10 at a concrete cell list in which option a has only
its True bubble extracted and options b, c, d have no cells at all. -/
theorem detect_p2_option_keys_witness :
    ((1, [('a', false), ('b', false), ('c', false), ('d', false)]) :
        ℕ × List (Char × Bool)).2.map Prod.fst = ['a', 'b', 'c', 'd'] ∧
    List.lookup 'b'
      ((1, [('a', false), ('b', false), ('c', false), ('d', false)]) :
        ℕ × List (Char × Bool)).2 = some false := by
  have h := detect_p2_option_keys
    [{ question := 1, opt := 'a', isTrue := true, filled := 1/2, mean := 100 }]
    (1, [('a', false), ('b', false), ('c', false), ('d', false)])
    (by decide)
  exact ⟨h.1, h.2 'b' (by decide) (Or.inl rfl)⟩

/-! ### Part III: services/Process/balanced_grid_p3.py

`detect_p3_answer` reads `column_name` (grouping key over C1..C4, here
the column number 1..4), `digit`, `filled_ratio` and `mean` of each cell
record; the embedding keeps exactly those. -/

structure P3Cell where
  col : ℕ
  digit : String
  filled : ℚ
  mean : ℚ
deriving DecidableEq, Repr

/-- `BalancedGridP3.digit_map`: the twelve row symbols. -/
def digitMap : List String :=
  ["-", ",", "0", "1", "2", "3", "4", "5", "6", "7", "8", "9"]

/-- The per-column selection of `detect_p3_answer`: sort the column's
cells by filled ratio descending (stably), classify the best cell as
STRONG (`filled >= 0.37` or `filled >= 0.35 and mean < 145`) or MARGINAL
(`filled >= 0.34 and gap >= 0.05 and mean < 165`, with gap the
filled-ratio lead over the runner-up, or 0.5 when the column has a single
cell); the column yields its best digit iff one of the two holds,
otherwise the empty symbol. -/
def p3SelectDigit (cells : List P3Cell) (k : ℕ) : String :=
  match sortDesc (·.filled) (cells.filter (fun c => decide (c.col = k))) with
  | [] => ""
  | best :: rest =>
    let gap : ℚ :=
      match rest with
      | second :: _ => best.filled - second.filled
      | [] => 1/2
    if (37/100 ≤ best.filled ∨ (35/100 ≤ best.filled ∧ best.mean < 145))
        ∨ (34/100 ≤ best.filled ∧ 1/20 ≤ gap ∧ best.mean < 165)
    then best.digit else ""

/-- Python `str.replace(',', '.')` for the single-character pattern. -/
def commaDot (c : Char) : Char := if c = ',' then Char.ofNat 46 else c

/-- Python `str.strip()` on the character list: drop whitespace from both
ends. -/
def pyStrip (cs : List Char) : List Char :=
  ((cs.dropWhile Char.isWhitespace).reverse.dropWhile Char.isWhitespace).reverse

/-- Numeric value of a digit run (most significant first). -/
def digitsVal (cs : List Char) : ℚ :=
  cs.foldl (fun acc c => 10 * acc + ((c.toNat - 48 : ℕ) : ℚ)) 0

/-- Python `float(s)`, restricted to the grammar
`[+ | -] digits [. digits]` with at least one digit and nothing else —
exactly the strings that the Part III assembly can produce (its symbols
are `digit_map` entries with ',' replaced by '.').  `float` raises
`ValueError` outside the grammar; the embedding returns `none` there,
matching the `except ValueError: return None` in `detect_p3_answer`. -/
def pyFloatChars (cs : List Char) : Option ℚ :=
  let sign : ℚ × List Char :=
    match cs with
    | '-' :: rest => (-1, rest)
    | '+' :: rest => (1, rest)
    | _ => (1, cs)
  let intPart := sign.2.takeWhile Char.isDigit
  let rest2 := sign.2.dropWhile Char.isDigit
  match rest2 with
  | [] => if intPart.isEmpty then none else some (sign.1 * digitsVal intPart)
  | '.' :: rest3 =>
      let fracPart := rest3.takeWhile Char.isDigit
      let rest4 := rest3.dropWhile Char.isDigit
      if rest4.isEmpty && !(intPart.isEmpty && fracPart.isEmpty) then
        some (sign.1 *
          (digitsVal intPart + digitsVal fracPart / 10 ^ fracPart.length))
      else none
  | _ => none

/-- `BalancedGridP3.detect_p3_answer`: select one symbol per column C1..C4,
join them (`''.join(selected_digits)`), replace ',' by '.', strip, and
convert with `float`, returning `None` for the empty string or on
`ValueError`.  Empty cell lists return `None` up front. -/
def detectP3Answer (cells : List P3Cell) : Option ℚ :=
  match cells with
  | [] => none
  | _ :: _ =>
    let numberStr := p3SelectDigit cells 1 ++ p3SelectDigit cells 2
      ++ p3SelectDigit cells 3 ++ p3SelectDigit cells 4
    let replaced := numberStr.toList.map commaDot
    let stripped := pyStrip replaced
    if stripped.isEmpty then none else pyFloatChars stripped

/-- The Part III value as the specification words it: concatenate the
four selected column symbols in column order C1..C4, replace every ','
with '.', and emit the parsed number if the string parses as a (finite)
real number, `none` otherwise. -/
def p3SpecValue (cells : List P3Cell) : Option ℚ :=
  pyFloatChars ((p3SelectDigit cells 1 ++ p3SelectDigit cells 2
    ++ p3SelectDigit cells 3 ++ p3SelectDigit cells 4).toList.map commaDot)

/-- C5: whenever a Part III digit column has at least two cells — `best`
the top cell of the filled-ratio-descending order and `second` the
runner-up — the column contributes its best symbol iff best is STRONG
(`filled >= 0.37`, or `filled >= 0.35` and `mean < 145`) or MARGINAL
(`filled >= 0.34`, gap `>= 0.05` and `mean < 165`), and the empty symbol
otherwise. -/
theorem p3_select_digit_gate (cells : List P3Cell) (k : ℕ)
    (best second : P3Cell) (rest : List P3Cell)
    (hs : sortDesc (·.filled) (cells.filter (fun c => decide (c.col = k)))
      = best :: second :: rest) :
    p3SelectDigit cells k =
      if (37/100 ≤ best.filled ∨ (35/100 ≤ best.filled ∧ best.mean < 145))
          ∨ (34/100 ≤ best.filled ∧ 1/20 ≤ best.filled - second.filled
              ∧ best.mean < 165)
      then best.digit else "" := by
  unfold p3SelectDigit
  rw [hs]

/-- Witness for C5 at a concrete two-cell column. -/
theorem p3_select_digit_gate_witness :
    p3SelectDigit
      [{ col := 1, digit := "5", filled := 4, mean := 120 },
       { col := 1, digit := "3", filled := 1, mean := 200 }] 1 =
      if ((37:ℚ)/100 ≤ (4:ℚ) ∨ ((35:ℚ)/100 ≤ (4:ℚ) ∧ (120:ℚ) < 145))
          ∨ ((34:ℚ)/100 ≤ (4:ℚ) ∧ (1:ℚ)/20 ≤ (4:ℚ) - (1:ℚ) ∧ (120:ℚ) < 165)
      then "5" else "" :=
  p3_select_digit_gate
    [{ col := 1, digit := "5", filled := 4, mean := 120 },
     { col := 1, digit := "3", filled := 1, mean := 200 }] 1
    { col := 1, digit := "5", filled := 4, mean := 120 }
    { col := 1, digit := "3", filled := 1, mean := 200 } []
    (by decide)

theorem dropWhile_eq_self_of {α : Type} (p : α → Bool) (cs : List α)
    (h : ∀ c ∈ cs, p c = false) : cs.dropWhile p = cs := by
  cases cs with
  | nil => rfl
  | cons x xs => simp [List.dropWhile_cons, h x (List.mem_cons_self x xs)]

theorem pyStrip_eq_self (cs : List Char)
    (h : ∀ c ∈ cs, Char.isWhitespace c = false) : pyStrip cs = cs := by
  unfold pyStrip
  rw [dropWhile_eq_self_of _ _ h,
    dropWhile_eq_self_of _ _ (fun c hc => h c (List.mem_reverse.1 hc)),
    List.reverse_reverse]

theorem p3SelectDigit_cases (cells : List P3Cell) (k : ℕ) :
    p3SelectDigit cells k = "" ∨
    ∃ b ∈ cells, p3SelectDigit cells k = b.digit := by
  unfold p3SelectDigit
  cases hs : sortDesc (·.filled) (cells.filter (fun c => decide (c.col = k))) with
  | nil => exact Or.inl rfl
  | cons best rest =>
      have hbmem : best ∈ cells := by
        have h1 : best ∈ sortDesc (·.filled)
            (cells.filter (fun c => decide (c.col = k))) := by
          rw [hs]; exact List.mem_cons_self _ _
        rw [mem_sortDesc, List.mem_filter] at h1
        exact h1.1
      by_cases hc : (37/100 ≤ best.filled ∨ (35/100 ≤ best.filled ∧ best.mean < 145))
          ∨ (34/100 ≤ best.filled ∧
              1/20 ≤ (match rest with
                      | second :: _ => best.filled - second.filled
                      | [] => (1:ℚ)/2) ∧ best.mean < 165)
      · exact Or.inr ⟨best, hbmem, if_pos hc⟩
      · exact Or.inl (if_neg hc)

/-- Every character of the digit alphabet stays non-whitespace after the
comma-to-dot replacement. -/
theorem digitMap_nonwhitespace :
    ∀ s ∈ digitMap, ∀ ch ∈ s.toList, (commaDot ch).isWhitespace = false := by
  decide

/-- C6: for every Part III region whose cells carry symbols of the digit
alphabet, `detect_p3_answer` equals the specified composition: the four
selected column symbols concatenated in order C1..C4, commas replaced by
dots, parsed as a real number when the string is numeric and `none`
otherwise — an unparseable string yields `none`, never an exception. -/
theorem detect_p3_parse_agreement (cells : List P3Cell)
    (hd : ∀ c ∈ cells, c.digit ∈ digitMap) :
    detectP3Answer cells = p3SpecValue cells := by
  cases cells with
  | nil => rfl
  | cons c cs =>
      simp only [detectP3Answer, p3SpecValue]
      have hsel : ∀ k, ∀ ch ∈ (p3SelectDigit (c :: cs) k).toList,
          ∀ s ∈ digitMap, True := fun _ _ _ _ _ => trivial
      have hns : ∀ ch ∈ ((p3SelectDigit (c :: cs) 1 ++ p3SelectDigit (c :: cs) 2
          ++ p3SelectDigit (c :: cs) 3 ++ p3SelectDigit (c :: cs) 4).toList.map
            commaDot), Char.isWhitespace ch = false := by
        intro ch hch
        rw [List.mem_map] at hch
        obtain ⟨ch0, hch0, rfl⟩ := hch
        have hsplit : ch0 ∈ (p3SelectDigit (c :: cs) 1).toList
            ∨ ch0 ∈ (p3SelectDigit (c :: cs) 2).toList
            ∨ ch0 ∈ (p3SelectDigit (c :: cs) 3).toList
            ∨ ch0 ∈ (p3SelectDigit (c :: cs) 4).toList := by
          have := hch0
          simp only [String.toList, String.data_append, List.mem_append] at this
          tauto
        have hdig : ∀ k, ch0 ∈ (p3SelectDigit (c :: cs) k).toList →
            (commaDot ch0).isWhitespace = false := by
          intro k hk
          rcases p3SelectDigit_cases (c :: cs) k with he | ⟨b, hb, he⟩
          · rw [he] at hk; simp [String.toList] at hk
          · rw [he] at hk
            exact digitMap_nonwhitespace b.digit (hd b hb) ch0 hk
        rcases hsplit with h | h | h | h
        · exact hdig 1 h
        · exact hdig 2 h
        · exact hdig 3 h
        · exact hdig 4 h
      rw [pyStrip_eq_self _ hns]
      by_cases hempty : ((p3SelectDigit (c :: cs) 1 ++ p3SelectDigit (c :: cs) 2
          ++ p3SelectDigit (c :: cs) 3 ++ p3SelectDigit (c :: cs) 4).toList.map
            commaDot).isEmpty
      · rw [if_pos hempty]
        rw [List.isEmpty_iff] at hempty
        rw [hempty]
        rfl
      · rw [if_neg hempty]

/-- Witness for C6 at a concrete region encoding -1,5 (minus one point
five). -/
theorem detect_p3_parse_agreement_witness :
    detectP3Answer
      [{ col := 1, digit := "-", filled := 1, mean := 100 },
       { col := 2, digit := "1", filled := 1, mean := 100 },
       { col := 3, digit := ",", filled := 1, mean := 100 },
       { col := 4, digit := "5", filled := 1, mean := 100 }] =
    p3SpecValue
      [{ col := 1, digit := "-", filled := 1, mean := 100 },
       { col := 2, digit := "1", filled := 1, mean := 100 },
       { col := 3, digit := ",", filled := 1, mean := 100 },
       { col := 4, digit := "5", filled := 1, mean := 100 }] :=
  detect_p3_parse_agreement _ (by decide)

/-! ### Grader: services/Grade/create_ans.py

`score_answers` consumes the scanned answers and the key in the format
produced by `scan_all_answers`: Part I is a list of (question, letter)
pairs, Part II a flattened list of ("qN_opt", bool) pairs, Part III a
list of (question, number) pairs.  The embedding models that well-typed
format (the dynamic normalisation branches for dict-shaped input and the
legacy mark-list format are not exercised by it); `dict(pairs)` lookups
keep the LAST occurrence of a duplicated key (`lookupLast`). -/

structure AnswerSet where
  p1 : List (ℕ × Char)
  p2 : List (String × Bool)
  p3 : List (ℕ × ℚ)

structure Scores where
  p1 : ℚ
  p2 : ℚ
  p3 : ℚ
  total : ℚ
deriving DecidableEq, Repr

/-- `dict(pairs).get(a)`: the value of the last pair with key `a`. -/
def lookupLast {α β : Type} [DecidableEq α] (l : List (α × β)) (a : α) :
    Option β :=
  ((l.filter (fun p => decide (p.1 = a))).getLast?).map (·.2)

/-- Part I scoring: count scanned entries whose letter matches the key
under the same question, divide by the NUMBER OF KEY ENTRIES and scale to
10, rounding to 2 decimals.  Empty scanned or key list scores 0. -/
def scoreP1 (scanned correct : List (ℕ × Char)) : ℚ :=
  if scanned.isEmpty || correct.isEmpty then 0
  else
    let correctCount := scanned.countP
      (fun p => decide (lookupLast correct p.1 = some p.2))
    pyRound2 ((correctCount : ℚ) / (correct.length : ℚ) * 10)

/-- Part II scoring: over the SET of key identifiers of the key
(`set(correct_flat.keys())`), count those where the scanned and key
dictionaries agree (`scanned_flat.get(k) == correct_flat.get(k)`), divide
by the set's size and scale to 10.  The `max(...)` fallback for an empty
key set is unreachable for a non-empty key list. -/
def scoreP2 (scanned correct : List (String × Bool)) : ℚ :=
  if scanned.isEmpty || correct.isEmpty then 0
  else
    let keys := (correct.map Prod.fst).dedup
    let total : ℕ :=
      if keys.isEmpty then
        max ((scanned.map Prod.fst).dedup).length keys.length
      else keys.length
    let correctCount := keys.countP
      (fun k => decide (lookupLast scanned k = lookupLast correct k))
    if total = 0 then 0
    else pyRound2 ((correctCount : ℚ) / (total : ℚ) * 10)

/-- Part III scoring: count scanned entries whose question appears in the
key and whose value is within 0.01 of the key value, divide by the number
of key entries and scale to 10. -/
def scoreP3 (scanned correct : List (ℕ × ℚ)) : ℚ :=
  if scanned.isEmpty || correct.isEmpty then 0
  else
    let correctCount := scanned.countP (fun p =>
      match lookupLast correct p.1 with
      | some e => decide (|p.2 - e| < 1/100)
      | none => false)
    pyRound2 ((correctCount : ℚ) / (correct.length : ℚ) * 10)

/-- `score_answers`: the three part scores and
`total_score = round((p1 + p2 + p3) / 3, 2)`. -/
def scoreAnswers (scanned correct : AnswerSet) : Scores :=
  let s1 := scoreP1 scanned.p1 correct.p1
  let s2 := scoreP2 scanned.p2 correct.p2
  let s3 := scoreP3 scanned.p3 correct.p3
  { p1 := s1, p2 := s2, p3 := s3, total := pyRound2 ((s1 + s2 + s3) / 3) }

/-- C9 (counterexample): a scanned Part I list that repeats question 1
three times against a one-entry key scores (3 / 1) * 10 = 30, far outside
[0, 10]. -/
theorem score_answers_exceeds_ten :
    (scoreAnswers { p1 := [(1, 'A'), (1, 'A'), (1, 'A')], p2 := [], p3 := [] }
        { p1 := [(1, 'A')], p2 := [], p3 := [] }).p1 = 30 ∧
    ¬ ((scoreAnswers { p1 := [(1, 'A'), (1, 'A'), (1, 'A')], p2 := [], p3 := [] }
        { p1 := [(1, 'A')], p2 := [], p3 := [] }).p1 ≤ 10) := by
  have h : (scoreAnswers
      { p1 := [(1, 'A'), (1, 'A'), (1, 'A')], p2 := [], p3 := [] }
      { p1 := [(1, 'A')], p2 := [], p3 := [] }).p1 = 30 := by
    norm_num [scoreAnswers, scoreP1, lookupLast, pyRound2, roundHalfEven,
      List.countP_cons, List.countP_nil]
  exact ⟨h, by rw [h]; norm_num⟩

theorem roundHalfEven_abs (y : ℚ) :
    |((roundHalfEven y : ℤ) : ℚ) - y| ≤ 1/2 := by
  have h1 : ((⌊y⌋ : ℤ) : ℚ) ≤ y := Int.floor_le y
  have h2 : y < ((⌊y⌋ : ℤ) : ℚ) + 1 := Int.lt_floor_add_one y
  unfold roundHalfEven
  split_ifs with ha hb hc <;> rw [abs_le] <;> push_cast <;>
    constructor <;> linarith

theorem pyRound2_diff (x : ℚ) : |pyRound2 x - x| ≤ 1/200 := by
  have h := roundHalfEven_abs (x * 100)
  rw [abs_le] at h ⊢
  unfold pyRound2
  constructor <;> [linarith; linarith]

theorem pyRound2_bounds (x : ℚ) (h0 : 0 ≤ x) (h10 : x ≤ 10) :
    0 ≤ pyRound2 x ∧ pyRound2 x ≤ 10 := by
  have h := pyRound2_diff x
  rw [abs_le] at h
  have hlow : (-1 : ℤ) < roundHalfEven (x * 100) := by
    have : (-1 : ℚ) < ((roundHalfEven (x * 100) : ℤ) : ℚ) := by
      have := h.1
      unfold pyRound2 at this
      linarith
    exact_mod_cast this
  have hhigh : roundHalfEven (x * 100) < 1001 := by
    have : ((roundHalfEven (x * 100) : ℤ) : ℚ) < 1001 := by
      have := h.2
      unfold pyRound2 at this
      linarith
    exact_mod_cast this
  constructor
  · unfold pyRound2
    have : (0 : ℤ) ≤ roundHalfEven (x * 100) := by omega
    have h2 : (0 : ℚ) ≤ ((roundHalfEven (x * 100) : ℤ) : ℚ) := by exact_mod_cast this
    positivity
  · unfold pyRound2
    have : roundHalfEven (x * 100) ≤ 1000 := by omega
    have h2 : ((roundHalfEven (x * 100) : ℤ) : ℚ) ≤ 1000 := by exact_mod_cast this
    linarith

theorem lookupLast_mem_keys {α β : Type} [DecidableEq α]
    (l : List (α × β)) (a : α) (b : β) (h : lookupLast l a = some b) :
    a ∈ l.map Prod.fst := by
  unfold lookupLast at h
  rw [Option.map_eq_some'] at h
  obtain ⟨pr, hpr, _⟩ := h
  have hmem : pr ∈ l.filter (fun p => decide (p.1 = a)) := by
    obtain ⟨hne, heq⟩ := List.mem_getLast?_eq_getLast (Option.mem_def.mpr hpr)
    rw [heq]
    exact List.getLast_mem hne
  rw [List.mem_filter, decide_eq_true_eq] at hmem
  rw [List.mem_map]
  exact ⟨pr, hmem.1, hmem.2⟩

/-- When the scanned entries have pairwise-distinct keys, at most one
scanned entry can match each key entry, so the match count is bounded by
the key length. -/
theorem countP_le_of_keys {α β γ : Type} [DecidableEq α]
    (scanned : List (α × β)) (correct : List (α × γ)) (pr : α × β → Bool)
    (hnd : (scanned.map Prod.fst).Nodup)
    (hpr : ∀ p, pr p = true → p.1 ∈ correct.map Prod.fst) :
    scanned.countP pr ≤ correct.length := by
  rw [List.countP_eq_length_filter]
  have hnd2 : ((scanned.filter pr).map Prod.fst).Nodup :=
    hnd.sublist (List.Sublist.map Prod.fst (List.filter_sublist scanned))
  have hsub : (scanned.filter pr).map Prod.fst ⊆ correct.map Prod.fst := by
    intro a ha
    rw [List.mem_map] at ha
    obtain ⟨p, hp, rfl⟩ := ha
    rw [List.mem_filter] at hp
    exact hpr p hp.2
  calc (scanned.filter pr).length
      = ((scanned.filter pr).map Prod.fst).length := (List.length_map _ _).symm
    _ ≤ (correct.map Prod.fst).length := (hnd2.subperm hsub).length_le
    _ = correct.length := List.length_map _ _

theorem scoreP1_bounds (scanned correct : List (ℕ × Char))
    (hnd : (scanned.map Prod.fst).Nodup) :
    0 ≤ scoreP1 scanned correct ∧ scoreP1 scanned correct ≤ 10 := by
  unfold scoreP1
  split_ifs with h
  · norm_num
  · rw [Bool.or_eq_true, not_or, List.isEmpty_iff] at h
    have hlen : 1 ≤ correct.length := by
      cases correct with
      | nil => exact absurd rfl h.2
      | cons x xs => simp
    have hcount : scanned.countP
        (fun p => decide (lookupLast correct p.1 = some p.2)) ≤ correct.length := by
      refine countP_le_of_keys scanned correct _ hnd ?_
      intro p hp
      rw [decide_eq_true_eq] at hp
      exact lookupLast_mem_keys correct p.1 p.2 hp
    refine pyRound2_bounds _ ?_ ?_
    · positivity
    · rw [div_mul_eq_mul_div, div_le_iff (by positivity)]
      have : (scanned.countP (fun p => decide (lookupLast correct p.1 = some p.2)) : ℚ)
          ≤ (correct.length : ℚ) := by exact_mod_cast hcount
      linarith

theorem scoreP2_bounds (scanned correct : List (String × Bool)) :
    0 ≤ scoreP2 scanned correct ∧ scoreP2 scanned correct ≤ 10 := by
  unfold scoreP2
  by_cases h : (scanned.isEmpty || correct.isEmpty) = true
  · rw [if_pos h]
    norm_num
  · rw [if_neg h]
    simp only [Bool.or_eq_true, List.isEmpty_iff, not_or] at h
    have hkeys : (correct.map Prod.fst).dedup ≠ [] := by
      intro hnil
      rw [List.dedup_eq_nil, List.map_eq_nil_iff] at hnil
      exact h.2 hnil
    have hkie : ((correct.map Prod.fst).dedup).isEmpty = false := by
      rw [← Bool.not_eq_true, List.isEmpty_iff]
      exact hkeys
    have hlen : 1 ≤ ((correct.map Prod.fst).dedup).length :=
      List.length_pos.mpr hkeys
    simp only [hkie, Bool.false_eq_true, if_false]
    rw [if_neg (by omega)]
    have hcount : ((correct.map Prod.fst).dedup).countP
        (fun k => decide (lookupLast scanned k = lookupLast correct k)) ≤
        ((correct.map Prod.fst).dedup).length := List.countP_le_length _
    refine pyRound2_bounds _ ?_ ?_
    · positivity
    · rw [div_mul_eq_mul_div, div_le_iff (by positivity)]
      have : (((correct.map Prod.fst).dedup).countP
          (fun k => decide (lookupLast scanned k = lookupLast correct k)) : ℚ)
          ≤ (((correct.map Prod.fst).dedup).length : ℚ) := by exact_mod_cast hcount
      linarith

theorem scoreP3_bounds (scanned correct : List (ℕ × ℚ))
    (hnd : (scanned.map Prod.fst).Nodup) :
    0 ≤ scoreP3 scanned correct ∧ scoreP3 scanned correct ≤ 10 := by
  unfold scoreP3
  split_ifs with h
  · norm_num
  · rw [Bool.or_eq_true, not_or, List.isEmpty_iff] at h
    have hlen : 1 ≤ correct.length := by
      cases correct with
      | nil => exact absurd rfl h.2
      | cons x xs => simp
    have hcount : scanned.countP (fun p =>
        match lookupLast correct p.1 with
        | some e => decide (|p.2 - e| < 1/100)
        | none => false) ≤ correct.length := by
      refine countP_le_of_keys scanned correct _ hnd ?_
      intro p hp
      cases he : lookupLast correct p.1 with
      | none => rw [he] at hp; simp at hp
      | some e => exact lookupLast_mem_keys correct p.1 e he
    refine pyRound2_bounds _ ?_ ?_
    · positivity
    · rw [div_mul_eq_mul_div, div_le_iff (by positivity)]
      have : (scanned.countP (fun p =>
          match lookupLast correct p.1 with
          | some e => decide (|p.2 - e| < 1/100)
          | none => false) : ℚ) ≤ (correct.length : ℚ) := by exact_mod_cast hcount
      linarith

/-- C9 (amended): when the scanned Part I and Part III lists carry
pairwise-distinct question keys — as the extraction pipeline guarantees —
every part score returned by `score_answers` lies in [0, 10] (each is
`round((matches / key entries) * 10, 2)` by definition of
`scoreP1/scoreP2/scoreP3`), and the returned total is
`round((p1 + p2 + p3) / 3, 2)`, within 0.005 of the exact mean of the
three returned part scores.  Without the distinct-key condition a part
score can exceed 10 (see the counterexample). -/
theorem score_answers_amended (s c : AnswerSet)
    (h1 : (s.p1.map Prod.fst).Nodup) (h3 : (s.p3.map Prod.fst).Nodup) :
    (0 ≤ (scoreAnswers s c).p1 ∧ (scoreAnswers s c).p1 ≤ 10) ∧
    (0 ≤ (scoreAnswers s c).p2 ∧ (scoreAnswers s c).p2 ≤ 10) ∧
    (0 ≤ (scoreAnswers s c).p3 ∧ (scoreAnswers s c).p3 ≤ 10) ∧
    |(scoreAnswers s c).total -
      ((scoreAnswers s c).p1 + (scoreAnswers s c).p2 +
        (scoreAnswers s c).p3) / 3| ≤ 1/200 := by
  refine ⟨scoreP1_bounds s.p1 c.p1 h1, scoreP2_bounds s.p2 c.p2,
    scoreP3_bounds s.p3 c.p3 h3, ?_⟩
  exact pyRound2_diff _

/-- Witness for C9 (amended): grading a one-answer-per-part sheet against
itself. -/
theorem score_answers_amended_witness :
    (0 ≤ (scoreAnswers
        { p1 := [(1, 'A')], p2 := [("q1_a", true)], p3 := [(1, 3/2)] }
        { p1 := [(1, 'A')], p2 := [("q1_a", true)], p3 := [(1, 3/2)] }).p1 ∧
      (scoreAnswers
        { p1 := [(1, 'A')], p2 := [("q1_a", true)], p3 := [(1, 3/2)] }
        { p1 := [(1, 'A')], p2 := [("q1_a", true)], p3 := [(1, 3/2)] }).p1 ≤ 10) ∧
    (0 ≤ (scoreAnswers
        { p1 := [(1, 'A')], p2 := [("q1_a", true)], p3 := [(1, 3/2)] }
        { p1 := [(1, 'A')], p2 := [("q1_a", true)], p3 := [(1, 3/2)] }).p2 ∧
      (scoreAnswers
        { p1 := [(1, 'A')], p2 := [("q1_a", true)], p3 := [(1, 3/2)] }
        { p1 := [(1, 'A')], p2 := [("q1_a", true)], p3 := [(1, 3/2)] }).p2 ≤ 10) ∧
    (0 ≤ (scoreAnswers
        { p1 := [(1, 'A')], p2 := [("q1_a", true)], p3 := [(1, 3/2)] }
        { p1 := [(1, 'A')], p2 := [("q1_a", true)], p3 := [(1, 3/2)] }).p3 ∧
      (scoreAnswers
        { p1 := [(1, 'A')], p2 := [("q1_a", true)], p3 := [(1, 3/2)] }
        { p1 := [(1, 'A')], p2 := [("q1_a", true)], p3 := [(1, 3/2)] }).p3 ≤ 10) ∧
    |(scoreAnswers
        { p1 := [(1, 'A')], p2 := [("q1_a", true)], p3 := [(1, 3/2)] }
        { p1 := [(1, 'A')], p2 := [("q1_a", true)], p3 := [(1, 3/2)] }).total -
      ((scoreAnswers
        { p1 := [(1, 'A')], p2 := [("q1_a", true)], p3 := [(1, 3/2)] }
        { p1 := [(1, 'A')], p2 := [("q1_a", true)], p3 := [(1, 3/2)] }).p1 +
       (scoreAnswers
        { p1 := [(1, 'A')], p2 := [("q1_a", true)], p3 := [(1, 3/2)] }
        { p1 := [(1, 'A')], p2 := [("q1_a", true)], p3 := [(1, 3/2)] }).p2 +
       (scoreAnswers
        { p1 := [(1, 'A')], p2 := [("q1_a", true)], p3 := [(1, 3/2)] }
        { p1 := [(1, 'A')], p2 := [("q1_a", true)], p3 := [(1, 3/2)] }).p3) / 3|
      ≤ 1/200 :=
  score_answers_amended
    { p1 := [(1, 'A')], p2 := [("q1_a", true)], p3 := [(1, 3/2)] }
    { p1 := [(1, 'A')], p2 := [("q1_a", true)], p3 := [(1, 3/2)] }
    (by decide) (by decide)

end BE
